import Mathlib

/-!
# Verification of the tty0tty null-modem emulation core

This file gives a shallow embedding of the paired-endpoint emulation engine
found in `examples/tools/nullmodem/linux/module/tty0tty.c` and proves
properties of its operations: open/close lifecycle, the null-modem signal
wiring applied by `tty0tty_tiocmset`, the byte-forwarding path of
`tty0tty_write`, and the `TIOCMIWAIT` wait loop.

Machine integers (`int` / `unsigned int` registers and masks) are modelled as
`Nat` with explicit bitwise operations; the C complement `~m` on a 32-bit
unsigned value is modelled as `0xFFFFFFFF ^^^ m`.  The reference count
`open_count` is a C `int` and is modelled as `Int`.
-/

namespace Tty0tty

/-! ## Constants from the source (`#define`s in tty0tty.c) -/

def TINY_TTY_MINORS : Nat := 8

-- fake UART values, out (MCR) and in (MSR)
def MCR_DTR  : Nat := 0x01
def MCR_RTS  : Nat := 0x02
def MCR_LOOP : Nat := 0x04
def MSR_CTS  : Nat := 0x10
def MSR_CD   : Nat := 0x20
def MSR_DSR  : Nat := 0x40
def MSR_RI   : Nat := 0x80

/-! Standard Linux `termios`/`errno` constants used by the driver
(`TIOCM_*` modem-line bits and error numbers from the kernel headers). -/

def TIOCM_DTR  : Nat := 0x002
def TIOCM_RTS  : Nat := 0x004
def TIOCM_CTS  : Nat := 0x020
def TIOCM_CAR  : Nat := 0x040
def TIOCM_CD   : Nat := TIOCM_CAR
def TIOCM_RNG  : Nat := 0x080
def TIOCM_RI   : Nat := TIOCM_RNG
def TIOCM_DSR  : Nat := 0x100
def TIOCM_LOOP : Nat := 0x8000

def EIO : Int := 5
def ENOMEM : Int := 12
def ENODEV : Int := 19
def EINVAL : Int := 22
def ERESTARTSYS : Int := 512

/-- 32-bit complement: the C expression `~m` applied to an `unsigned int`. -/
def NOT32 (m : Nat) : Nat := 0xFFFFFFFF ^^^ m

/-! ## Data model -/

/-- The transition counters of `struct async_icount` that the driver reads
(`tiocmiwait` compares `cts`/`dsr`/`rng`/`dcd`; `tiocgicount` also reports
`rx`/`tx`).  The driver never writes any of these fields. -/
structure AsyncIcount where
  cts : Nat
  dsr : Nat
  rng : Nat
  dcd : Nat
  rx : Nat
  tx : Nat
deriving DecidableEq, Repr

/-- The all-zero counter record. -/
def zeroIcount : AsyncIcount := ⟨0, 0, 0, 0, 0, 0⟩

/-- The state of one endpoint: the fields of `struct tty0tty_serial` the
engine manipulates.  The `tty` pointer is represented implicitly by the
endpoint's index; the `serial` config snapshot and the semaphore are not
modelled (no claim concerns them).  `open_count` is a C `int`, hence `Int`. -/
structure Tty0ttySerial where
  open_count : Int
  msr : Nat
  mcr : Nat
  icount : AsyncIcount
deriving DecidableEq, Repr

/-- A freshly `kmalloc`ed record as `tty0tty_open` initializes it
(`sema_init`, `open_count = 0`).  The C code leaves `msr`, `mcr` and `icount`
to whatever `kmalloc` returned; the spec's lifecycle section says records are
created zeroed, and `msr` is overwritten by `open` before first use, so the
model takes the remaining fields as zero. -/
def freshSerial : Tty0ttySerial :=
  { open_count := 0, msr := 0, mcr := 0, icount := zeroIcount }

/-- The registry `tty0tty_table`: an array of `TINY_TTY_MINORS` slots, each
`NULL` (`none`) until first opened. -/
def Table := List (Option Tty0ttySerial)
deriving DecidableEq

/-- Read `tty0tty_table[i]` (out-of-range reads as `NULL`). -/
def tget (tbl : Table) (i : Nat) : Option Tty0ttySerial :=
  List.getD tbl i none

/-- Write `tty0tty_table[i] = t`. -/
def tset (tbl : Table) (i : Nat) (t : Tty0ttySerial) : Table :=
  List.set tbl i (some t)

/-- The empty registry: all `TINY_TTY_MINORS` slots `NULL`. -/
def emptyTable : Table := List.replicate TINY_TTY_MINORS none

/-! ## Pair resolver

The driver inlines the partner lookup everywhere as
`(index % 2) == 0 ? index + 1 : index - 1`. -/

/-- Partner index: `index + 1` for even indices, `index - 1` for odd ones. -/
def partnerIdx (i : Nat) : Nat :=
  if i % 2 = 0 then i + 1 else i - 1

/-! Accessors used to state theorems. -/

def mcrAt (tbl : Table) (i : Nat) : Option Nat := (tget tbl i).map (·.mcr)
def msrAt (tbl : Table) (i : Nat) : Option Nat := (tget tbl i).map (·.msr)
def icountAt (tbl : Table) (i : Nat) : Option AsyncIcount :=
  (tget tbl i).map (·.icount)
def openCountAt (tbl : Table) (i : Nat) : Option Int :=
  (tget tbl i).map (·.open_count)

/-! ## Table lemmas -/

lemma tget_tset_self (tbl : Table) (i : Nat) (t : Tty0ttySerial)
    (h : i < List.length tbl) : tget (tset tbl i t) i = some t := by
  simp [tget, tset, List.getD, List.getElem?_set_self, h]

lemma tget_tset_ne (tbl : Table) (i j : Nat) (t : Tty0ttySerial)
    (h : i ≠ j) : tget (tset tbl i t) j = tget tbl j := by
  simp [tget, tset, List.getD, List.getElem?_set_ne h]

lemma partnerIdx_ne (i : Nat) : partnerIdx i ≠ i := by
  unfold partnerIdx
  split
  · omega
  · rename_i h
    omega

lemma partnerIdx_lt (i : Nat) (h : i < TINY_TTY_MINORS) :
    partnerIdx i < TINY_TTY_MINORS := by
  unfold partnerIdx TINY_TTY_MINORS at *
  split
  · omega
  · omega

/-! ## Operations

Each definition transcribes one `tty_operations` entry point of the driver.
The `tty->index` argument of the C functions becomes the explicit index `i`;
the global `tty0tty_table` becomes the explicit `Table` argument. -/

/-- The control register of the partner, as `tty0tty_open`, `tty0tty_write`
and `tty0tty_tiocmset` read it: the adjacent even/odd slot's value when that
slot is non-`NULL` and has `open_count > 0`, and the local default (`0` /
`NULL`) otherwise. -/
def partnerActiveMcr (tbl : Table) (i : Nat) : Nat :=
  match tget tbl (partnerIdx i) with
  | some p => if 0 < p.open_count then p.mcr else 0
  | none => 0

/-- Whether the partner slot is non-`NULL` with `open_count > 0` (the guard
the driver re-evaluates before every cross-endpoint access). -/
def partnerActive (tbl : Table) (i : Nat) : Bool :=
  match tget tbl (partnerIdx i) with
  | some p => decide (0 < p.open_count)
  | none => false

/-- The "null modem connection" seeding in `tty0tty_open`: starting from
`msr = 0`, assert `MSR_CTS` when the partner's `mcr` has `MCR_RTS`, and
assert `MSR_DSR` and `MSR_CD` when it has `MCR_DTR`. -/
def openSeedMsr (mcr : Nat) : Nat :=
  let msr0 : Nat := 0
  let msr1 := if mcr &&& MCR_RTS = MCR_RTS then msr0 ||| MSR_CTS else msr0
  let msr2 := if mcr &&& MCR_DTR = MCR_DTR then msr1 ||| MSR_DSR ||| MSR_CD
              else msr1
  msr2

/-- `tty0tty_open`: create the record on first access (allocation failure is
not modelled), read the active partner's `mcr`, recompute this endpoint's
`msr` by the wiring rule, and increment `open_count`. -/
def tty0tty_open (tbl : Table) (i : Nat) : Table :=
  let t := match tget tbl i with
    | some t => t
    | none => freshSerial
  let mcr := partnerActiveMcr tbl i
  let msr := openSeedMsr mcr
  tset tbl i { t with msr := msr, open_count := t.open_count + 1 }

/-- `do_close`: decrement `open_count` unless it is already zero
(`if (!tty0tty->open_count) goto exit;`). -/
def do_close (t : Tty0ttySerial) : Tty0ttySerial :=
  if t.open_count = 0 then t else { t with open_count := t.open_count - 1 }

/-- `tty0tty_close`: no-op when the slot is `NULL`, otherwise `do_close`. -/
def tty0tty_close (tbl : Table) (i : Nat) : Table :=
  match tget tbl i with
  | none => tbl
  | some t => tset tbl i (do_close t)

/-- `tty0tty_write`: returns `-ENODEV` when `driver_data` is `NULL` (slot
never created), leaves `retval = -EINVAL` when `open_count` is zero, and
otherwise forwards the buffer to the partner's tty flip buffer only when the
partner is non-`NULL` and active, in which case it returns `count`.  The
result is the return value, the (unchanged) table — the function assigns no
field of any record — and the delivery `some (partner, bytes)` performed by
`tty_insert_flip_string`, or `none`. -/
def tty0tty_write (tbl : Table) (i : Nat) (buffer : List Nat) :
    Int × Table × Option (Nat × List Nat) :=
  match tget tbl i with
  | none => (-ENODEV, tbl, none)
  | some t =>
    if t.open_count = 0 then (-EINVAL, tbl, none)
    else if partnerActive tbl i then
      ((buffer.length : Int), tbl, some (partnerIdx i, buffer))
    else (-EINVAL, tbl, none)

/-- `tty0tty_write_room`: `-ENODEV` when the slot is `NULL`, `-EINVAL` when
not opened, else the constant 255. -/
def tty0tty_write_room (tbl : Table) (i : Nat) : Int :=
  match tget tbl i with
  | none => -ENODEV
  | some t => if t.open_count = 0 then -EINVAL else 255

/-- The register updates in the body of `tty0tty_tiocmset`: starting from
the local `mcr` and the base `msr` (the active partner's `msr`, or `0`),
apply the four conditional updates in source order — set `RTS`, set `DTR`,
clear `RTS`, clear `DTR`.  Returns the final `(mcr, msr)`. -/
def tiocmsetRegs (mcr0 msr0 set clear : Nat) : Nat × Nat :=
  let mcr1 := if set &&& TIOCM_RTS ≠ 0 then mcr0 ||| MCR_RTS else mcr0
  let msr1 := if set &&& TIOCM_RTS ≠ 0 then msr0 ||| MSR_CTS else msr0
  let mcr2 := if set &&& TIOCM_DTR ≠ 0 then mcr1 ||| MCR_DTR else mcr1
  let msr2 := if set &&& TIOCM_DTR ≠ 0 then msr1 ||| MSR_DSR ||| MSR_CD
              else msr1
  let mcr3 := if clear &&& TIOCM_RTS ≠ 0 then mcr2 &&& NOT32 MCR_RTS else mcr2
  let msr3 := if clear &&& TIOCM_RTS ≠ 0 then msr2 &&& NOT32 MSR_CTS else msr2
  let mcr4 := if clear &&& TIOCM_DTR ≠ 0 then mcr3 &&& NOT32 MCR_DTR else mcr3
  let msr4 := if clear &&& TIOCM_DTR ≠ 0 then
                msr3 &&& NOT32 MSR_DSR &&& NOT32 MSR_CD
              else msr3
  (mcr4, msr4)

/-- `tty0tty_tiocmset`: read the local `mcr` and the active partner's `msr`
(`0` if the partner is `NULL` or closed), apply the null-modem updates,
store the new local `mcr`, and store the new `msr` into the partner only if
the partner is (still) non-`NULL` and active.  The function never writes
`icount` and never wakes the partner's wait queue. -/
def tty0tty_tiocmset (tbl : Table) (i : Nat) (set clear : Nat) : Table :=
  match tget tbl i with
  | none => tbl
  | some t =>
    let msr0 := match tget tbl (partnerIdx i) with
      | some p => if 0 < p.open_count then p.msr else 0
      | none => 0
    let regs := tiocmsetRegs t.mcr msr0 set clear
    let tbl1 := tset tbl i { t with mcr := regs.1 }
    match tget tbl1 (partnerIdx i) with
    | some p => if 0 < p.open_count then
                  tset tbl1 (partnerIdx i) { p with msr := regs.2 }
                else tbl1
    | none => tbl1

/-- `tty0tty_tiocmget`: combine the local `mcr` and `msr` into the reported
`TIOCM_*` bitset. -/
def tty0tty_tiocmget (t : Tty0ttySerial) : Nat :=
  (if t.mcr &&& MCR_DTR ≠ 0 then TIOCM_DTR else 0) |||
  (if t.mcr &&& MCR_RTS ≠ 0 then TIOCM_RTS else 0) |||
  (if t.mcr &&& MCR_LOOP ≠ 0 then TIOCM_LOOP else 0) |||
  (if t.msr &&& MSR_CTS ≠ 0 then TIOCM_CTS else 0) |||
  (if t.msr &&& MSR_CD ≠ 0 then TIOCM_CAR else 0) |||
  (if t.msr &&& MSR_RI ≠ 0 then TIOCM_RI else 0) |||
  (if t.msr &&& MSR_DSR ≠ 0 then TIOCM_DSR else 0)

/-- One pass of the `while (1)` loop of `tty0tty_ioctl_tiocmiwait`, from the
return of `schedule()` to either a `return` or the `cprev = cnow`
re-snapshot before blocking again. -/
inductive IwaitStep where
  | ret (v : Int)
  | again (cprev : AsyncIcount)
deriving DecidableEq, Repr

/-- The body of the `TIOCMIWAIT` loop after a wake-up: return
`-ERESTARTSYS` if a signal is pending; return `-EIO` if none of the four
monitored counters moved since the previous snapshot `cprev`; return `0` if
a counter of a signal requested in `arg` moved; otherwise take `cnow` as the
new snapshot and block again. -/
def tiocmiwaitStep (arg : Nat) (signalPending : Bool)
    (cprev cnow : AsyncIcount) : IwaitStep :=
  if signalPending then .ret (-ERESTARTSYS)
  else if cnow.rng = cprev.rng ∧ cnow.dsr = cprev.dsr ∧
          cnow.dcd = cprev.dcd ∧ cnow.cts = cprev.cts then .ret (- EIO)
  else if (arg &&& TIOCM_RNG ≠ 0 ∧ cnow.rng ≠ cprev.rng) ∨
          (arg &&& TIOCM_DSR ≠ 0 ∧ cnow.dsr ≠ cprev.dsr) ∨
          (arg &&& TIOCM_CD ≠ 0 ∧ cnow.dcd ≠ cprev.dcd) ∨
          (arg &&& TIOCM_CTS ≠ 0 ∧ cnow.cts ≠ cprev.cts) then .ret 0
  else .again cnow

/-! ## Bit-algebra helpers

Small facts about `&&&`/`|||` masking used to reason about the register
updates; proved once by `testBit` extensionality. -/

lemma and_or_zero (x y m : Nat) (h : y &&& m = 0) :
    (x ||| y) &&& m = x &&& m := by
  apply Nat.eq_of_testBit_eq
  intro k
  have hy : (y.testBit k && m.testBit k) = false := by
    rw [← Nat.testBit_and, h, Nat.zero_testBit]
  rw [Nat.testBit_and, Nat.testBit_and, Nat.testBit_or]
  cases hx : x.testBit k <;> cases h1 : y.testBit k <;>
    cases h2 : m.testBit k <;> simp_all

lemma or_and_eq (x c m : Nat) (h : c &&& m = m) :
    (x ||| c) &&& m = m := by
  apply Nat.eq_of_testBit_eq
  intro k
  have hc : (c.testBit k && m.testBit k) = m.testBit k := by
    rw [← Nat.testBit_and, h]
  rw [Nat.testBit_and, Nat.testBit_or]
  cases hx : x.testBit k <;> cases h1 : c.testBit k <;>
    cases h2 : m.testBit k <;> simp_all

lemma and_and_sub (x d m : Nat) (h : d &&& m = m) :
    (x &&& d) &&& m = x &&& m := by
  rw [Nat.and_assoc, h]

lemma and_and_zero (x d m : Nat) (h : d &&& m = 0) :
    (x &&& d) &&& m = 0 := by
  rw [Nat.and_assoc, h, Nat.and_zero]

/-! ## Characterizations of the `tiocmset` register updates -/

/-- The CTS bit of the `msr` computed by `tiocmset`: cleared when the clear
mask has `RTS` (clear wins, being applied last), asserted when the set mask
has `RTS`, otherwise taken from the base value. -/
lemma tiocmsetRegs_cts (mcr0 x set clear : Nat) :
    (tiocmsetRegs mcr0 x set clear).2 &&& MSR_CTS =
      (if clear &&& TIOCM_RTS ≠ 0 then 0
       else if set &&& TIOCM_RTS ≠ 0 then MSR_CTS else x &&& MSR_CTS) := by
  have hoz64 : ∀ z : Nat, (z ||| MSR_DSR) &&& MSR_CTS = z &&& MSR_CTS :=
    fun z => and_or_zero z _ _ (by decide)
  have hoz32 : ∀ z : Nat, (z ||| MSR_CD) &&& MSR_CTS = z &&& MSR_CTS :=
    fun z => and_or_zero z _ _ (by decide)
  have hsub64 : ∀ z : Nat, (z &&& NOT32 MSR_DSR) &&& MSR_CTS = z &&& MSR_CTS :=
    fun z => and_and_sub z _ _ (by decide)
  have hsub32 : ∀ z : Nat, (z &&& NOT32 MSR_CD) &&& MSR_CTS = z &&& MSR_CTS :=
    fun z => and_and_sub z _ _ (by decide)
  have heq : ∀ z : Nat, (z ||| MSR_CTS) &&& MSR_CTS = MSR_CTS :=
    fun z => or_and_eq z _ _ (by decide)
  have hzero : ∀ z : Nat, (z &&& NOT32 MSR_CTS) &&& MSR_CTS = 0 :=
    fun z => and_and_zero z _ _ (by decide)
  simp only [tiocmsetRegs]
  by_cases hA : set &&& TIOCM_RTS ≠ 0 <;> by_cases hB : set &&& TIOCM_DTR ≠ 0 <;>
    by_cases hC : clear &&& TIOCM_RTS ≠ 0 <;>
      by_cases hD : clear &&& TIOCM_DTR ≠ 0 <;>
        simp [hA, hB, hC, hD, hoz64, hoz32, hsub64, hsub32, heq, hzero]

/-- The DSR bit of the `msr` computed by `tiocmset`. -/
lemma tiocmsetRegs_dsr (mcr0 x set clear : Nat) :
    (tiocmsetRegs mcr0 x set clear).2 &&& MSR_DSR =
      (if clear &&& TIOCM_DTR ≠ 0 then 0
       else if set &&& TIOCM_DTR ≠ 0 then MSR_DSR else x &&& MSR_DSR) := by
  have hoz16 : ∀ z : Nat, (z ||| MSR_CTS) &&& MSR_DSR = z &&& MSR_DSR :=
    fun z => and_or_zero z _ _ (by decide)
  have hoz32 : ∀ z : Nat, (z ||| MSR_CD) &&& MSR_DSR = z &&& MSR_DSR :=
    fun z => and_or_zero z _ _ (by decide)
  have hsub16 : ∀ z : Nat, (z &&& NOT32 MSR_CTS) &&& MSR_DSR = z &&& MSR_DSR :=
    fun z => and_and_sub z _ _ (by decide)
  have hsub32 : ∀ z : Nat, (z &&& NOT32 MSR_CD) &&& MSR_DSR = z &&& MSR_DSR :=
    fun z => and_and_sub z _ _ (by decide)
  have heq : ∀ z : Nat, (z ||| MSR_DSR) &&& MSR_DSR = MSR_DSR :=
    fun z => or_and_eq z _ _ (by decide)
  have hzero : ∀ z : Nat, (z &&& NOT32 MSR_DSR) &&& MSR_DSR = 0 :=
    fun z => and_and_zero z _ _ (by decide)
  simp only [tiocmsetRegs]
  by_cases hA : set &&& TIOCM_RTS ≠ 0 <;> by_cases hB : set &&& TIOCM_DTR ≠ 0 <;>
    by_cases hC : clear &&& TIOCM_RTS ≠ 0 <;>
      by_cases hD : clear &&& TIOCM_DTR ≠ 0 <;>
        simp [hA, hB, hC, hD, hoz16, hoz32, hsub16, hsub32, heq, hzero]

/-- The CD bit of the `msr` computed by `tiocmset`. -/
lemma tiocmsetRegs_cd (mcr0 x set clear : Nat) :
    (tiocmsetRegs mcr0 x set clear).2 &&& MSR_CD =
      (if clear &&& TIOCM_DTR ≠ 0 then 0
       else if set &&& TIOCM_DTR ≠ 0 then MSR_CD else x &&& MSR_CD) := by
  have hoz16 : ∀ z : Nat, (z ||| MSR_CTS) &&& MSR_CD = z &&& MSR_CD :=
    fun z => and_or_zero z _ _ (by decide)
  have hoz64 : ∀ z : Nat, (z ||| MSR_DSR) &&& MSR_CD = z &&& MSR_CD :=
    fun z => and_or_zero z _ _ (by decide)
  have hsub16 : ∀ z : Nat, (z &&& NOT32 MSR_CTS) &&& MSR_CD = z &&& MSR_CD :=
    fun z => and_and_sub z _ _ (by decide)
  have hsub64 : ∀ z : Nat, (z &&& NOT32 MSR_DSR) &&& MSR_CD = z &&& MSR_CD :=
    fun z => and_and_sub z _ _ (by decide)
  have heq : ∀ z : Nat, (z ||| MSR_CD) &&& MSR_CD = MSR_CD :=
    fun z => or_and_eq z _ _ (by decide)
  have hzero : ∀ z : Nat, (z &&& NOT32 MSR_CD) &&& MSR_CD = 0 :=
    fun z => and_and_zero z _ _ (by decide)
  simp only [tiocmsetRegs]
  by_cases hA : set &&& TIOCM_RTS ≠ 0 <;> by_cases hB : set &&& TIOCM_DTR ≠ 0 <;>
    by_cases hC : clear &&& TIOCM_RTS ≠ 0 <;>
      by_cases hD : clear &&& TIOCM_DTR ≠ 0 <;>
        simp [hA, hB, hC, hD, hoz16, hoz64, hsub16, hsub64, heq, hzero]

/-- Frame of the `msr` update: on any mask `m` disjoint from the CTS, DSR
and CD bits (and contained in the 32-bit complements of those bits), the
computed `msr` agrees with the base value — `tiocmset` can only change
those three bits of the partner's status register. -/
lemma tiocmsetRegs_msr_mask (mcr0 x set clear m : Nat)
    (h1 : MSR_CTS &&& m = 0) (h2 : MSR_DSR &&& m = 0) (h3 : MSR_CD &&& m = 0)
    (h4 : NOT32 MSR_CTS &&& m = m) (h5 : NOT32 MSR_DSR &&& m = m)
    (h6 : NOT32 MSR_CD &&& m = m) :
    (tiocmsetRegs mcr0 x set clear).2 &&& m = x &&& m := by
  have e1 : ∀ z : Nat, (z ||| MSR_CTS) &&& m = z &&& m :=
    fun z => and_or_zero z _ m h1
  have e2 : ∀ z : Nat, (z ||| MSR_DSR) &&& m = z &&& m :=
    fun z => and_or_zero z _ m h2
  have e3 : ∀ z : Nat, (z ||| MSR_CD) &&& m = z &&& m :=
    fun z => and_or_zero z _ m h3
  have f1 : ∀ z : Nat, (z &&& NOT32 MSR_CTS) &&& m = z &&& m :=
    fun z => and_and_sub z _ m h4
  have f2 : ∀ z : Nat, (z &&& NOT32 MSR_DSR) &&& m = z &&& m :=
    fun z => and_and_sub z _ m h5
  have f3 : ∀ z : Nat, (z &&& NOT32 MSR_CD) &&& m = z &&& m :=
    fun z => and_and_sub z _ m h6
  simp only [tiocmsetRegs]
  by_cases hA : set &&& TIOCM_RTS ≠ 0 <;> by_cases hB : set &&& TIOCM_DTR ≠ 0 <;>
    by_cases hC : clear &&& TIOCM_RTS ≠ 0 <;>
      by_cases hD : clear &&& TIOCM_DTR ≠ 0 <;>
        simp [hA, hB, hC, hD, e1, e2, e3, f1, f2, f3]

/-- The `TIOCM_LOOP` bit of the set/clear masks is invisible to the
register updates: the driver tests only the `TIOCM_RTS` and `TIOCM_DTR`
bits, and `TIOCM_LOOP` overlaps neither. -/
lemma tiocmsetRegs_loop (mcr0 msr0 set clear : Nat) :
    tiocmsetRegs mcr0 msr0 (set ||| TIOCM_LOOP) (clear ||| TIOCM_LOOP) =
      tiocmsetRegs mcr0 msr0 set clear := by
  simp only [tiocmsetRegs,
    and_or_zero set TIOCM_LOOP TIOCM_RTS (by decide),
    and_or_zero set TIOCM_LOOP TIOCM_DTR (by decide),
    and_or_zero clear TIOCM_LOOP TIOCM_RTS (by decide),
    and_or_zero clear TIOCM_LOOP TIOCM_DTR (by decide)]

/-! ## Decomposition of `tty0tty_tiocmset` at the table level -/

/-- `tiocmset` with an existing, active partner: the caller's record gets
the new `mcr`, the partner's record gets the new `msr`, computed from the
caller's old `mcr` and the partner's old `msr`. -/
lemma tiocmset_active (tbl : Table) (i : Nat) (t p : Tty0ttySerial)
    (set clear : Nat) (ht : tget tbl i = some t)
    (hp : tget tbl (partnerIdx i) = some p) (hpo : 0 < p.open_count) :
    tty0tty_tiocmset tbl i set clear =
      tset (tset tbl i { t with mcr := (tiocmsetRegs t.mcr p.msr set clear).1 })
        (partnerIdx i)
        { p with msr := (tiocmsetRegs t.mcr p.msr set clear).2 } := by
  have hp1 : tget (tset tbl i
      { t with mcr := (tiocmsetRegs t.mcr p.msr set clear).1 }) (partnerIdx i) =
      some p := by
    rw [tget_tset_ne _ _ _ _ (partnerIdx_ne i).symm]; exact hp
  simp only [tty0tty_tiocmset, ht, hp, hp1, hpo, if_pos]

/-- `tiocmset` with an absent or inactive partner: only the caller's `mcr`
is updated (the base `msr` is taken as `0`, and the result is discarded). -/
lemma tiocmset_inactive (tbl : Table) (i : Nat) (t : Tty0ttySerial)
    (set clear : Nat) (ht : tget tbl i = some t)
    (hinact : ∀ p, tget tbl (partnerIdx i) = some p → p.open_count ≤ 0) :
    tty0tty_tiocmset tbl i set clear =
      tset tbl i { t with mcr := (tiocmsetRegs t.mcr 0 set clear).1 } := by
  rcases hcase : tget tbl (partnerIdx i) with _ | p
  · have hp1 : tget (tset tbl i
        { t with mcr := (tiocmsetRegs t.mcr 0 set clear).1 }) (partnerIdx i) =
        (none : Option Tty0ttySerial) := by
      rw [tget_tset_ne _ _ _ _ (partnerIdx_ne i).symm]; exact hcase
    simp only [tty0tty_tiocmset, ht, hcase, hp1]
  · have hno : ¬ 0 < p.open_count := by
      have := hinact p hcase
      omega
    have hp1 : tget (tset tbl i
        { t with mcr := (tiocmsetRegs t.mcr 0 set clear).1 }) (partnerIdx i) =
        some p := by
      rw [tget_tset_ne _ _ _ _ (partnerIdx_ne i).symm]; exact hcase
    simp only [tty0tty_tiocmset, ht, hcase, hp1, hno, if_neg, if_false]

/-! ## Concrete states used as test inputs -/

/-- An endpoint open once with all registers and counters zero. -/
def openZero : Tty0ttySerial :=
  { open_count := 1, msr := 0, mcr := 0, icount := zeroIcount }

/-- Both endpoints of pair 0/1 open, everything zeroed. -/
def tblBothOpen : Table :=
  [some openZero, some openZero, none, none, none, none, none, none]

/-- Endpoint 0 open; its partner 1 exists but is closed (`open_count = 0`). -/
def tblPartnerClosed : Table :=
  [some openZero, some freshSerial, none, none, none, none, none, none]

/-- Partner 1 open with `RTS` and `DTR` asserted; slot 0 never opened. -/
def pOpenRtsDtr : Tty0ttySerial :=
  { open_count := 1, msr := 0, mcr := MCR_RTS ||| MCR_DTR, icount := zeroIcount }

def tblSeed : Table :=
  [none, some pOpenRtsDtr, none, none, none, none, none, none]

/-- The C2 scenario: assert `RTS` on endpoint 0, then clear it. -/
def tblAfterSetRts : Table := tty0tty_tiocmset tblBothOpen 0 TIOCM_RTS 0

def tblAfterClearRts : Table := tty0tty_tiocmset tblAfterSetRts 0 0 TIOCM_RTS

/-! ## Claim theorems -/

/-- C7: the partner-resolution function is `index XOR 1`, an involution
with no fixed point, pure and total on the valid index range (it maps
valid indices to valid indices). -/
theorem c7_partner_involution (i : Nat) (h : i < TINY_TTY_MINORS) :
    partnerIdx (partnerIdx i) = i ∧ partnerIdx i ≠ i ∧
    partnerIdx i = i ^^^ 1 ∧ partnerIdx i < TINY_TTY_MINORS := by
  revert h
  revert i
  decide

/-- Witness for C7 at the concrete index 4. -/
theorem c7_partner_involution_witness :
    partnerIdx (partnerIdx 4) = 4 ∧ partnerIdx 4 ≠ 4 ∧
    partnerIdx 4 = 4 ^^^ 1 ∧ partnerIdx 4 < TINY_TTY_MINORS :=
  c7_partner_involution 4 (by decide)

/-- C8: `open_count` stays non-negative — `open` increments it, `do_close`
decrements it only when it is positive, and closing an endpoint whose count
is already `0` is a no-op that neither errors nor deallocates the record
(the slot survives as `some _`). -/
theorem c8_open_count (tbl : Table) (i : Nat) (t : Tty0ttySerial)
    (hlen : i < List.length tbl) (ht : tget tbl i = some t)
    (h : 0 ≤ t.open_count) :
    openCountAt (tty0tty_open tbl i) i = some (t.open_count + 1) ∧
    tget (tty0tty_close tbl i) i = some (do_close t) ∧
    (t.open_count = 0 → do_close t = t) ∧
    (0 < t.open_count → (do_close t).open_count = t.open_count - 1) ∧
    0 ≤ (do_close t).open_count := by
  refine ⟨?_, ?_, ?_, ?_, ?_⟩
  · simp [tty0tty_open, ht, openCountAt, tget_tset_self _ _ _ hlen]
  · simp only [tty0tty_close, ht, tget_tset_self _ _ _ hlen]
  · intro h0
    simp [do_close, h0]
  · intro h0
    simp only [do_close]
    rw [if_neg (by omega)]
  · simp only [do_close]
    split
    · omega
    · simp only
      omega

/-- Witness for C8 on the concrete two-endpoint table. -/
theorem c8_open_count_witness :
    openCountAt (tty0tty_open tblBothOpen 0) 0 = some (openZero.open_count + 1) ∧
    tget (tty0tty_close tblBothOpen 0) 0 = some (do_close openZero) ∧
    (openZero.open_count = 0 → do_close openZero = openZero) ∧
    (0 < openZero.open_count →
      (do_close openZero).open_count = openZero.open_count - 1) ∧
    0 ≤ (do_close openZero).open_count :=
  c8_open_count tblBothOpen 0 openZero (by decide) (by decide) (by decide)

/-- C4: one pass of the `TIOCMIWAIT` loop after a wake-up — a pending
signal yields `-ERESTARTSYS` (Interrupted); otherwise, if none of the four
monitored counters (CTS, DSR, CD, RI) moved since the previous snapshot the
result is `-EIO` (NoChangeError); if a counter of a signal requested in the
mask moved the result is `0` (success); otherwise the loop re-snapshots and
blocks again. -/
theorem c4_tiocmiwait_step (arg : Nat) (signalPending : Bool)
    (cprev cnow : AsyncIcount) :
    (signalPending = true →
      tiocmiwaitStep arg signalPending cprev cnow = .ret (-ERESTARTSYS)) ∧
    (signalPending = false → cnow.cts = cprev.cts → cnow.dsr = cprev.dsr →
      cnow.dcd = cprev.dcd → cnow.rng = cprev.rng →
      tiocmiwaitStep arg signalPending cprev cnow = .ret (- EIO)) ∧
    (signalPending = false →
      ((arg &&& TIOCM_RNG ≠ 0 ∧ cnow.rng ≠ cprev.rng) ∨
       (arg &&& TIOCM_DSR ≠ 0 ∧ cnow.dsr ≠ cprev.dsr) ∨
       (arg &&& TIOCM_CD ≠ 0 ∧ cnow.dcd ≠ cprev.dcd) ∨
       (arg &&& TIOCM_CTS ≠ 0 ∧ cnow.cts ≠ cprev.cts)) →
      tiocmiwaitStep arg signalPending cprev cnow = .ret 0) ∧
    (signalPending = false →
      ¬(cnow.rng = cprev.rng ∧ cnow.dsr = cprev.dsr ∧
        cnow.dcd = cprev.dcd ∧ cnow.cts = cprev.cts) →
      ¬((arg &&& TIOCM_RNG ≠ 0 ∧ cnow.rng ≠ cprev.rng) ∨
        (arg &&& TIOCM_DSR ≠ 0 ∧ cnow.dsr ≠ cprev.dsr) ∨
        (arg &&& TIOCM_CD ≠ 0 ∧ cnow.dcd ≠ cprev.dcd) ∨
        (arg &&& TIOCM_CTS ≠ 0 ∧ cnow.cts ≠ cprev.cts)) →
      tiocmiwaitStep arg signalPending cprev cnow = .again cnow) := by
  refine ⟨?_, ?_, ?_, ?_⟩
  · intro hs
    simp [tiocmiwaitStep, hs]
  · intro hs h1 h2 h3 h4
    simp [tiocmiwaitStep, hs, h1, h2, h3, h4]
  · intro hs hreq
    have hne : ¬(cnow.rng = cprev.rng ∧ cnow.dsr = cprev.dsr ∧
        cnow.dcd = cprev.dcd ∧ cnow.cts = cprev.cts) := by
      rcases hreq with ⟨_, h⟩ | ⟨_, h⟩ | ⟨_, h⟩ | ⟨_, h⟩ <;> tauto
    simp [tiocmiwaitStep, hs, hne, hreq]
  · intro hs hne hreq
    simp [tiocmiwaitStep, hs, hne, hreq]

/-- A counter record with one CTS transition recorded. -/
def oneCts : AsyncIcount := ⟨1, 0, 0, 0, 0, 0⟩

/-- Witness for C4: a waiter on `TIOCM_CTS` woken without a pending signal
after one CTS transition gets success. -/
theorem c4_tiocmiwait_step_witness :
    tiocmiwaitStep TIOCM_CTS false zeroIcount oneCts = .ret 0 :=
  (c4_tiocmiwait_step TIOCM_CTS false zeroIcount oneCts).2.2.1 rfl
    (Or.inr (Or.inr (Or.inr ⟨by decide, by decide⟩)))

/-- C5: the first open of an endpoint whose partner is active with `RTS`
and `DTR` asserted seeds the opener's status register with CTS, DSR and CD
asserted (i.e. with `openSeedMsr` of the partner's control register), and
the open itself changes no transition counter of the opened endpoint. -/
theorem c5_open_seed (tbl : Table) (i : Nat) (p : Tty0ttySerial)
    (hlen : List.length tbl = TINY_TTY_MINORS) (hi : i < TINY_TTY_MINORS)
    (hfirst : tget tbl i = none ∨ ∃ t, tget tbl i = some t ∧ t.open_count = 0)
    (hp : tget tbl (partnerIdx i) = some p) (hpo : 0 < p.open_count)
    (hrts : p.mcr &&& MCR_RTS = MCR_RTS) (hdtr : p.mcr &&& MCR_DTR = MCR_DTR) :
    msrAt (tty0tty_open tbl i) i = some (MSR_CTS ||| MSR_DSR ||| MSR_CD) ∧
    msrAt (tty0tty_open tbl i) i = some (openSeedMsr p.mcr) ∧
    (∀ t, tget tbl i = some t →
      icountAt (tty0tty_open tbl i) i = some t.icount) ∧
    (tget tbl i = none → icountAt (tty0tty_open tbl i) i = some zeroIcount) := by
  have hilen : i < List.length tbl := by omega
  have hmcr : partnerActiveMcr tbl i = p.mcr := by
    simp [partnerActiveMcr, hp, hpo]
  have hseed : openSeedMsr p.mcr = MSR_CTS ||| MSR_DSR ||| MSR_CD := by
    simp [openSeedMsr, hrts, hdtr]
  refine ⟨?_, ?_, ?_, ?_⟩
  · rcases hti : tget tbl i with _ | t <;>
      simp [tty0tty_open, hti, msrAt, tget_tset_self _ _ _ hilen, hmcr, hseed]
  · rcases hti : tget tbl i with _ | t <;>
      simp [tty0tty_open, hti, msrAt, tget_tset_self _ _ _ hilen, hmcr]
  · intro t hti
    simp [tty0tty_open, hti, icountAt, tget_tset_self _ _ _ hilen]
  · intro hti
    simp [tty0tty_open, hti, icountAt, tget_tset_self _ _ _ hilen, freshSerial]

/-- Witness for C5: opening endpoint 0 of `tblSeed` (partner 1 open with
`RTS` and `DTR` asserted, slot 0 never created). -/
theorem c5_open_seed_witness :
    msrAt (tty0tty_open tblSeed 0) 0 = some (MSR_CTS ||| MSR_DSR ||| MSR_CD) ∧
    icountAt (tty0tty_open tblSeed 0) 0 = some zeroIcount := by
  have h := c5_open_seed tblSeed 0 pOpenRtsDtr (by decide) (by decide)
    (Or.inl rfl) rfl (by decide) (by decide) (by decide)
  exact ⟨h.1, h.2.2.2 rfl⟩

/-- C9: every call to open overwrites the opener's status register with a
value recomputed from the partner's current control register — the old
`msr` is irrelevant — and when the partner is absent or inactive the new
status register is all-clear. -/
theorem c9_open_overwrites (tbl : Table) (i : Nat)
    (hlen : List.length tbl = TINY_TTY_MINORS) (hi : i < TINY_TTY_MINORS) :
    msrAt (tty0tty_open tbl i) i =
      some (openSeedMsr (partnerActiveMcr tbl i)) ∧
    (∀ t m, tget tbl i = some t →
      msrAt (tty0tty_open (tset tbl i { t with msr := m }) i) i =
        msrAt (tty0tty_open tbl i) i) ∧
    ((∀ p, tget tbl (partnerIdx i) = some p → p.open_count ≤ 0) →
      msrAt (tty0tty_open tbl i) i = some 0) := by
  have hilen : i < List.length tbl := by omega
  refine ⟨?_, ?_, ?_⟩
  · rcases hti : tget tbl i with _ | t <;>
      simp [tty0tty_open, hti, msrAt, tget_tset_self _ _ _ hilen]
  · intro t m hti
    have hilen2 : i < List.length (tset tbl i { t with msr := m }) := by
      simp [tset, hilen]
    have hti2 : tget (tset tbl i { t with msr := m }) i =
        some { t with msr := m } := tget_tset_self _ _ _ hilen
    have hpm : partnerActiveMcr (tset tbl i { t with msr := m }) i =
        partnerActiveMcr tbl i := by
      simp [partnerActiveMcr, tget_tset_ne _ _ _ _ (partnerIdx_ne i).symm]
    simp [tty0tty_open, hti, hti2, msrAt, tget_tset_self _ _ _ hilen,
      tget_tset_self _ _ _ hilen2, hpm]
  · intro hinact
    have hpm : partnerActiveMcr tbl i = 0 := by
      rcases hcase : tget tbl (partnerIdx i) with _ | p
      · simp [partnerActiveMcr, hcase]
      · have := hinact p hcase
        have hno : ¬ 0 < p.open_count := by omega
        simp [partnerActiveMcr, hcase, hno]
    rcases hti : tget tbl i with _ | t <;>
      simp [tty0tty_open, hti, msrAt, tget_tset_self _ _ _ hilen, hpm,
        openSeedMsr, MCR_RTS, MCR_DTR, MSR_CTS]

/-- Witness for C9: a second open of already-open endpoint 0 whose partner
exists but is closed resets endpoint 0's status register to all-clear. -/
theorem c9_open_overwrites_witness :
    msrAt (tty0tty_open tblPartnerClosed 0) 0 = some 0 := by
  have h := c9_open_overwrites tblPartnerClosed 0 (by decide) (by decide)
  refine h.2.2 ?_
  intro p hp
  have : p = freshSerial := by
    have : some p = some freshSerial := by rw [← hp]; rfl
    exact (Option.some_injective _ this.symm).symm
  rw [this]
  decide

/-- C6: `tiocmset` on an endpoint whose partner is absent or inactive still
updates the local control register with the requested set/clear masks, but
writes no other table slot — in particular no partner status register. -/
theorem c6_tiocmset_no_partner (tbl : Table) (i : Nat) (t : Tty0ttySerial)
    (set clear : Nat)
    (hlen : List.length tbl = TINY_TTY_MINORS) (hi : i < TINY_TTY_MINORS)
    (ht : tget tbl i = some t)
    (hinact : ∀ p, tget tbl (partnerIdx i) = some p → p.open_count ≤ 0) :
    tty0tty_tiocmset tbl i set clear =
      tset tbl i { t with mcr := (tiocmsetRegs t.mcr 0 set clear).1 } ∧
    mcrAt (tty0tty_tiocmset tbl i set clear) i =
      some (tiocmsetRegs t.mcr 0 set clear).1 ∧
    msrAt (tty0tty_tiocmset tbl i set clear) i = some t.msr ∧
    (∀ j, j ≠ i → tget (tty0tty_tiocmset tbl i set clear) j = tget tbl j) := by
  have hilen : i < List.length tbl := by omega
  have hmain := tiocmset_inactive tbl i t set clear ht hinact
  refine ⟨hmain, ?_, ?_, ?_⟩
  · rw [hmain]
    simp [mcrAt, tget_tset_self _ _ _ hilen]
  · rw [hmain]
    simp [msrAt, tget_tset_self _ _ _ hilen]
  · intro j hj
    rw [hmain, tget_tset_ne _ _ _ _ (fun h => hj h.symm)]

/-- Witness for C6: setting `RTS` on endpoint 0 of `tblPartnerClosed`
(partner present but closed). -/
theorem c6_tiocmset_no_partner_witness :
    mcrAt (tty0tty_tiocmset tblPartnerClosed 0 TIOCM_RTS 0) 0 =
      some (tiocmsetRegs openZero.mcr 0 TIOCM_RTS 0).1 ∧
    tget (tty0tty_tiocmset tblPartnerClosed 0 TIOCM_RTS 0) 1 =
      tget tblPartnerClosed 1 := by
  have h := c6_tiocmset_no_partner tblPartnerClosed 0 openZero TIOCM_RTS 0
    (by decide) (by decide) rfl (by decide)
  exact ⟨h.2.1, h.2.2.2 1 (by decide)⟩

/-- C10: `tiocmset` never modifies the caller's own status register nor the
partner's control register, and the partner's new status register agrees
with its old one outside the CTS/DSR/CD bits — in particular the RI bit is
preserved. -/
theorem c10_tiocmset_frame (tbl : Table) (i : Nat) (t p : Tty0ttySerial)
    (set clear : Nat)
    (hlen : List.length tbl = TINY_TTY_MINORS) (hi : i < TINY_TTY_MINORS)
    (ht : tget tbl i = some t) (hp : tget tbl (partnerIdx i) = some p) :
    msrAt (tty0tty_tiocmset tbl i set clear) i = some t.msr ∧
    mcrAt (tty0tty_tiocmset tbl i set clear) (partnerIdx i) = some p.mcr ∧
    ∃ q : Nat,
      msrAt (tty0tty_tiocmset tbl i set clear) (partnerIdx i) = some q ∧
      q &&& MSR_RI = p.msr &&& MSR_RI ∧
      q &&& NOT32 (MSR_CTS ||| MSR_DSR ||| MSR_CD) =
        p.msr &&& NOT32 (MSR_CTS ||| MSR_DSR ||| MSR_CD) := by
  have hilen : i < List.length tbl := by omega
  have hplen : partnerIdx i < List.length tbl := by
    have := partnerIdx_lt i hi
    omega
  by_cases hpo : 0 < p.open_count
  · have hmain := tiocmset_active tbl i t p set clear ht hp hpo
    have hilen2 : i < List.length (tset tbl i
        { t with mcr := (tiocmsetRegs t.mcr p.msr set clear).1 }) := by
      simp [tset, hilen]
    have hplen2 : partnerIdx i < List.length (tset tbl i
        { t with mcr := (tiocmsetRegs t.mcr p.msr set clear).1 }) := by
      simp [tset, hplen]
    refine ⟨?_, ?_, ⟨(tiocmsetRegs t.mcr p.msr set clear).2, ?_, ?_, ?_⟩⟩
    · rw [hmain]
      rw [msrAt, tget_tset_ne _ _ _ _ (partnerIdx_ne i),
        tget_tset_self _ _ _ hilen]
      rfl
    · rw [hmain]
      rw [mcrAt, tget_tset_self _ _ _ hplen2]
      rfl
    · rw [hmain]
      rw [msrAt, tget_tset_self _ _ _ hplen2]
      rfl
    · exact tiocmsetRegs_msr_mask _ _ _ _ _ (by decide) (by decide) (by decide)
        (by decide) (by decide) (by decide)
    · exact tiocmsetRegs_msr_mask _ _ _ _ _ (by decide) (by decide) (by decide)
        (by decide) (by decide) (by decide)
  · have hinact : ∀ p', tget tbl (partnerIdx i) = some p' →
        p'.open_count ≤ 0 := by
      intro p' hp'
      have : p' = p := by
        have : some p' = some p := by rw [← hp', hp]
        exact Option.some_injective _ this
      rw [this]
      omega
    have hmain := tiocmset_inactive tbl i t set clear ht hinact
    refine ⟨?_, ?_, ⟨p.msr, ?_, rfl, rfl⟩⟩
    · rw [hmain]
      rw [msrAt, tget_tset_self _ _ _ hilen]
      rfl
    · rw [hmain]
      rw [mcrAt, tget_tset_ne _ _ _ _ (partnerIdx_ne i).symm, hp]
      rfl
    · rw [hmain]
      rw [msrAt, tget_tset_ne _ _ _ _ (partnerIdx_ne i).symm, hp]
      rfl

/-- Witness for C10: setting `DTR` on endpoint 0 of the two-open table
leaves endpoint 0's status register and endpoint 1's control register
untouched. -/
theorem c10_tiocmset_frame_witness :
    msrAt (tty0tty_tiocmset tblBothOpen 0 TIOCM_DTR 0) 0 =
      some openZero.msr ∧
    mcrAt (tty0tty_tiocmset tblBothOpen 0 TIOCM_DTR 0) 1 =
      some openZero.mcr := by
  have h := c10_tiocmset_frame tblBothOpen 0 openZero openZero TIOCM_DTR 0
    (by decide) (by decide) rfl rfl
  exact ⟨h.1, h.2.1⟩

/-- C1 (amended): with an active partner, `tiocmset` wires the control
lines into the partner's status register — setting `RTS` (and not clearing
it) asserts the partner's CTS; setting `DTR` asserts the partner's DSR and
CD; clearing `RTS` clears the partner's CTS; clearing `DTR` clears the
partner's DSR and CD.  The `TIOCM_LOOP` bit of the set/clear masks is
ignored entirely: adding it to either mask changes nothing — neither the
local control register nor any partner state. -/
theorem c1_null_modem_wiring (tbl : Table) (i : Nat) (t p : Tty0ttySerial)
    (set clear : Nat)
    (hlen : List.length tbl = TINY_TTY_MINORS) (hi : i < TINY_TTY_MINORS)
    (ht : tget tbl i = some t) (hp : tget tbl (partnerIdx i) = some p)
    (hpo : 0 < p.open_count) :
    (∃ q : Nat,
      msrAt (tty0tty_tiocmset tbl i set clear) (partnerIdx i) = some q ∧
      (set &&& TIOCM_RTS ≠ 0 → clear &&& TIOCM_RTS = 0 →
        q &&& MSR_CTS = MSR_CTS) ∧
      (set &&& TIOCM_DTR ≠ 0 → clear &&& TIOCM_DTR = 0 →
        q &&& MSR_DSR = MSR_DSR ∧ q &&& MSR_CD = MSR_CD) ∧
      (clear &&& TIOCM_RTS ≠ 0 → q &&& MSR_CTS = 0) ∧
      (clear &&& TIOCM_DTR ≠ 0 → q &&& MSR_DSR = 0 ∧ q &&& MSR_CD = 0)) ∧
    tty0tty_tiocmset tbl i (set ||| TIOCM_LOOP) (clear ||| TIOCM_LOOP) =
      tty0tty_tiocmset tbl i set clear := by
  have hplen2 : partnerIdx i < List.length (tset tbl i
      { t with mcr := (tiocmsetRegs t.mcr p.msr set clear).1 }) := by
    have := partnerIdx_lt i hi
    simp [tset]
    omega
  constructor
  · refine ⟨(tiocmsetRegs t.mcr p.msr set clear).2, ?_, ?_, ?_, ?_, ?_⟩
    · rw [tiocmset_active tbl i t p set clear ht hp hpo]
      rw [msrAt, tget_tset_self _ _ _ hplen2]
      rfl
    · intro hs hc
      rw [tiocmsetRegs_cts]
      simp [hs, hc]
    · intro hs hc
      rw [tiocmsetRegs_dsr, tiocmsetRegs_cd]
      simp [hs, hc]
    · intro hc
      rw [tiocmsetRegs_cts]
      simp [hc]
    · intro hc
      rw [tiocmsetRegs_dsr, tiocmsetRegs_cd]
      simp [hc]
  · simp only [tty0tty_tiocmset, tiocmsetRegs_loop]

/-- Witness for C1: setting `RTS` and `DTR` on endpoint 0 of the two-open
zeroed table asserts CTS, DSR and CD on partner 1, and adding `TIOCM_LOOP`
to the masks changes nothing. -/
theorem c1_null_modem_wiring_witness :
    (∃ q : Nat,
      msrAt (tty0tty_tiocmset tblBothOpen 0 (TIOCM_RTS ||| TIOCM_DTR) 0) 1 =
        some q ∧
      q &&& MSR_CTS = MSR_CTS ∧ q &&& MSR_DSR = MSR_DSR ∧
      q &&& MSR_CD = MSR_CD) ∧
    tty0tty_tiocmset tblBothOpen 0
        ((TIOCM_RTS ||| TIOCM_DTR) ||| TIOCM_LOOP) (0 ||| TIOCM_LOOP) =
      tty0tty_tiocmset tblBothOpen 0 (TIOCM_RTS ||| TIOCM_DTR) 0 := by
  have h := c1_null_modem_wiring tblBothOpen 0 openZero openZero
    (TIOCM_RTS ||| TIOCM_DTR) 0 (by decide) (by decide) rfl rfl (by decide)
  rcases h with ⟨⟨q, hq, hcts, hdtr, _, _⟩, hloop⟩
  exact ⟨⟨q, hq, hcts (by decide) (by decide), (hdtr (by decide) (by decide)).1,
    (hdtr (by decide) (by decide)).2⟩, hloop⟩

/-- Counterexample for C1 as stated: `set_modem_bits` with the `LOOP` bit
does **not** change the local control register — on the two-open zeroed
table, `tiocmset` with `set = TIOCM_LOOP` leaves the entire table (in
particular endpoint 0's `mcr`, which stays `0` rather than gaining
`MCR_LOOP`) unchanged. -/
theorem c1_loop_counterexample :
    tty0tty_tiocmset tblBothOpen 0 TIOCM_LOOP 0 = tblBothOpen ∧
    mcrAt (tty0tty_tiocmset tblBothOpen 0 TIOCM_LOOP 0) 0 = some 0 ∧
    ¬ mcrAt (tty0tty_tiocmset tblBothOpen 0 TIOCM_LOOP 0) 0 =
        some MCR_LOOP := by
  decide

/-- C2 (code bug): the driver never increments any transition counter and
never wakes the partner's wait queue — no statement in `tty0tty_tiocmset`
(or anywhere else) writes `icount`.  On the concrete set-`RTS`-then-clear
scenario the partner's CTS status bit flips twice, yet the partner's
counters stay identically zero (the claim requires `cts` to reach 2). -/
theorem c2_counters_never_move :
    msrAt tblAfterSetRts 1 = some MSR_CTS ∧
    icountAt tblAfterSetRts 1 = some zeroIcount ∧
    msrAt tblAfterClearRts 1 = some 0 ∧
    icountAt tblAfterClearRts 1 = some zeroIcount ∧
    ¬ (icountAt tblAfterClearRts 1).map (·.cts) = some 2 := by
  decide

/-- C3 (amended): a write on an active endpoint whose partner is absent or
inactive **fails** with `-EINVAL` — the bytes are not accepted, nothing is
delivered or queued, and no state (in particular no byte counter, none
exists) changes; a write on a non-active endpoint also fails with
`-EINVAL`. -/
theorem c3_write_inactive_partner (tbl : Table) (i : Nat)
    (t : Tty0ttySerial) (buffer : List Nat) (ht : tget tbl i = some t) :
    (t.open_count = 0 →
      tty0tty_write tbl i buffer = (-EINVAL, tbl, none)) ∧
    (t.open_count ≠ 0 →
      (∀ p, tget tbl (partnerIdx i) = some p → p.open_count ≤ 0) →
      tty0tty_write tbl i buffer = (-EINVAL, tbl, none)) := by
  constructor
  · intro h0
    simp [tty0tty_write, ht, h0]
  · intro h0 hinact
    have hpa : partnerActive tbl i = false := by
      rcases hcase : tget tbl (partnerIdx i) with _ | p
      · simp [partnerActive, hcase]
      · have := hinact p hcase
        simp [partnerActive, hcase]
        omega
    simp [tty0tty_write, ht, h0, hpa]

/-- Witness for C3 (amended): writing three bytes on endpoint 0 while its
partner 1 exists but is closed fails with `-EINVAL` and delivers nothing. -/
theorem c3_write_inactive_partner_witness :
    tty0tty_write tblPartnerClosed 0 [10, 20, 30] =
      (-EINVAL, tblPartnerClosed, none) :=
  (c3_write_inactive_partner tblPartnerClosed 0 openZero [10, 20, 30]
    rfl).2 (by decide) (by decide)

/-- Counterexample for C3 as stated: writing 3 bytes on open endpoint 0
while partner 1 is closed returns `-EINVAL`, not the accepted count 3, and
nothing is delivered. -/
theorem c3_write_counterexample :
    (tty0tty_write tblPartnerClosed 0 [10, 20, 30]).1 = -EINVAL ∧
    (tty0tty_write tblPartnerClosed 0 [10, 20, 30]).2.2 = none ∧
    ¬ (tty0tty_write tblPartnerClosed 0 [10, 20, 30]).1 = 3 := by
  decide

end Tty0tty
